import Mathlib

/-!
Verification of the room-scoped real-time chat subsystem of the
wms-dismantle backend (`app/chat_router.py`, `app/models.py`).

The embedding models:
* the persisted data (`User`, `ChatRoom`, `ChatMessage`) and the store
  (`Store`) as plain records and lists, with a logical clock standing in
  for `datetime.now()` (each call to `now()` yields a fresh, strictly
  larger tick);
* the websocket connection registry (`ConnectionManager.active_connections`)
  as the list of usernames holding a live channel;
* one iteration of the websocket endpoint's frame loop as `processFrame`
  (the body of the `while True:` loop), where a Python `KeyError` raised by
  `data["k"]` on a missing key becomes `Except.error (.keyError k)`;
* the outer `try/except` of the endpoint as `handleFrame`: an escaped
  exception is logged, the registry entry removed, and the session closed;
* the HTTP endpoints `create_or_get_chat_room` and `get_chat_messages`.
-/

namespace WmsChat

/-- A row of the `users` table (the fields read by the chat subsystem). -/
structure User where
  username : String
  role : String
  area : Option String
  region : Option String
  deriving DecidableEq, Repr

/-- A row of the `chat_rooms` table. -/
structure ChatRoom where
  id : Nat
  teknisi_username : String
  admin_regional_username : String
  region : Option String
  last_message : Option String
  last_message_at : Option Nat
  unread_count_teknisi : Nat
  unread_count_admin : Nat
  created_at : Nat
  deriving DecidableEq, Repr

/-- A row of the `chat_messages` table. -/
structure ChatMessage where
  id : Nat
  room_id : Nat
  sender_username : String
  sender_role : String
  message : String
  message_type : String
  attachment_url : Option String
  is_read : Bool
  created_at : Nat
  deriving DecidableEq, Repr

/-- The persistence store: the chat tables plus the id sequences and the
logical clock standing in for `datetime.now()`. -/
structure Store where
  rooms : List ChatRoom
  messages : List ChatMessage
  nextRoomId : Nat
  nextMessageId : Nat
  clock : Nat
  deriving DecidableEq, Repr

/-- The empty database. -/
def initialStore : Store :=
  { rooms := [], messages := [], nextRoomId := 1, nextMessageId := 1, clock := 0 }

/-- One inbound JSON frame of the websocket protocol: each field of the
`data` dict is `none` when the key is absent (`data["k"]` raises `KeyError`
exactly on `none`; `data.get("k")` yields the `Option` itself). -/
structure Frame where
  action : Option String
  room_id : Option Nat
  sender_role : Option String
  message : Option String
  message_type : Option String
  attachment_url : Option String
  role : Option String
  deriving DecidableEq, Repr

/-- `session.query(ChatRoom).filter(ChatRoom.id == rid).first()`. -/
def findRoom (s : Store) (rid : Nat) : Option ChatRoom :=
  s.rooms.find? (fun r => r.id == rid)

/-- Mutating the ORM object returned by `.filter(ChatRoom.id == rid).first()`:
the first row matching the id is replaced by its update, the rest untouched. -/
def updateRoomFirst (rid : Nat) (g : ChatRoom → ChatRoom) :
    List ChatRoom → List ChatRoom
  | [] => []
  | r :: rest =>
      if r.id == rid then g r :: rest else r :: updateRoomFirst rid g rest

/-- `ConnectionManager.send_message`: deliver the payload iff the username
has a live registry entry; an absent recipient is silently skipped and no
error reaches the caller.  The result is the list of performed deliveries. -/
def sendToConnection {α : Type} (reg : List String) (u : String) (payload : α) :
    List (String × α) :=
  if u ∈ reg then [(u, payload)] else []

/-- `ConnectionManager.broadcast_to_room`: load the room; if present, send
to each of its two members except `exclude`; if absent, do nothing. -/
def broadcastToRoom {α : Type} (reg : List String) (s : Store) (rid : Nat)
    (payload : α) (exclude : Option String) : List (String × α) :=
  match findRoom s rid with
  | none => []
  | some room =>
      (if exclude == some room.teknisi_username then []
       else sendToConnection reg room.teknisi_username payload)
      ++
      (if exclude == some room.admin_regional_username then []
       else sendToConnection reg room.admin_regional_username payload)

/-- A `KeyError` raised by `data["k"]` on a missing key. -/
inductive HandlerError where
  | keyError : String → HandlerError
  deriving DecidableEq, Repr

/-- `data["k"]`: the value when present, `KeyError` otherwise. -/
def reqField {α : Type} (o : Option α) (k : String) : Except HandlerError α :=
  match o with
  | some v => Except.ok v
  | none => Except.error (HandlerError.keyError k)

/-- The room mutation the `send_message` branch performs under `if room:`:
refresh the last-message fields and increment the unread counter of the
non-sending side (a two-way branch on the frame's sender_role). -/
def sendRoomUpdate (body : String) (clk : Nat) (srole : String)
    (r : ChatRoom) : ChatRoom :=
  { r with
    last_message := some body,
    last_message_at := some clk,
    unread_count_admin :=
      if srole == "teknisi" then r.unread_count_admin + 1
      else r.unread_count_admin,
    unread_count_teknisi :=
      if srole == "teknisi" then r.unread_count_teknisi
      else r.unread_count_teknisi + 1 }

/-- The counter reset `mark_read` performs: a two-way branch on the
frame's role. -/
def markRoomUpdate (role : String) (r : ChatRoom) : ChatRoom :=
  if role == "teknisi" then { r with unread_count_teknisi := 0 }
  else { r with unread_count_admin := 0 }

/-- The `send_message` branch of the frame loop, after field extraction:
persist the new `ChatMessage` (created_at assigned at persist time),
update the room's last-message fields and unread counter when the room
exists, commit, then broadcast the stored message to the room with no
exclusion.  Returns the committed store and the deliveries performed. -/
def sendMessageAction (username : String) (reg : List String) (s : Store)
    (rid : Nat) (srole body mtype : String) (aurl : Option String) :
    Store × List (String × ChatMessage) :=
  let msg : ChatMessage :=
    { id := s.nextMessageId, room_id := rid, sender_username := username,
      sender_role := srole, message := body, message_type := mtype,
      attachment_url := aurl, is_read := false, created_at := s.clock }
  let s' : Store :=
    { s with
      rooms := updateRoomFirst rid (sendRoomUpdate body s.clock srole) s.rooms,
      messages := s.messages ++ [msg],
      nextMessageId := s.nextMessageId + 1,
      clock := s.clock + 1 }
  (s', broadcastToRoom reg s' rid msg none)

/-- The body of the `mark_read` branch once the room was found: zero the
counter selected by the frame's `role`, flip `is_read` on every message of
the room not sent by the connected username and not yet read, commit. -/
def markReadAction (username : String) (s : Store) (rid : Nat) (role : String) :
    Store :=
  { s with
    rooms := updateRoomFirst rid (markRoomUpdate role) s.rooms,
    messages := s.messages.map (fun m =>
      if m.room_id == rid && m.sender_username != username && m.is_read == false
      then { m with is_read := true } else m) }

/-- One iteration of the websocket frame loop (`while True:` body of
`websocket_endpoint`): dispatch on `data.get("action")`, reading required
keys in the source's evaluation order (`KeyError` escapes as `.error`).
Note that in the `mark_read` branch the source reads `data["role"]` only
inside `if room:`, after the room lookup succeeded.  An unrecognized or
absent action is silently ignored. -/
def processFrame (username : String) (reg : List String) (s : Store)
    (data : Frame) : Except HandlerError (Store × List (String × ChatMessage)) :=
  if data.action == some "send_message" then
    match data.room_id with
    | none => Except.error (HandlerError.keyError "room_id")
    | some rid =>
      match data.sender_role with
      | none => Except.error (HandlerError.keyError "sender_role")
      | some srole =>
        match data.message with
        | none => Except.error (HandlerError.keyError "message")
        | some body =>
            Except.ok (sendMessageAction username reg s rid srole body
              (data.message_type.getD "text") data.attachment_url)
  else if data.action == some "mark_read" then
    match data.room_id with
    | none => Except.error (HandlerError.keyError "room_id")
    | some rid =>
      match findRoom s rid with
      | none => Except.ok (s, [])
      | some _ =>
        match data.role with
        | none => Except.error (HandlerError.keyError "role")
        | some role => Except.ok (markReadAction username s rid role, [])
  else Except.ok (s, [])

/-- The session-handler state machine of the endpoint. -/
inductive SessionState where
  | Open : SessionState
  | Closed : SessionState
  deriving DecidableEq, Repr

/-- One frame as seen through the endpoint's outer `try/except`: a
successful iteration keeps the session `Open`; an escaped exception is
logged, the username's registry entry removed (`manager.disconnect`), and
the session becomes `Closed` with the store untouched.  Returns the store,
the deliveries, the registry, and the session state after the frame. -/
def handleFrame (username : String) (reg : List String) (s : Store)
    (data : Frame) :
    Store × List (String × ChatMessage) × List String × SessionState :=
  match processFrame username reg s data with
  | Except.ok (s', ds) => (s', ds, reg, SessionState.Open)
  | Except.error _ => (s, [], reg.erase username, SessionState.Closed)

/-- A sequence of frames arriving from possibly different connections,
interleaved: each is processed by its own handler against the shared
store; a frame that raises only closes its own connection and leaves the
store unchanged. -/
def runActions (reg : List String) : Store → List (String × Frame) → Store
  | s, [] => s
  | s, (u, f) :: rest =>
      match processFrame u reg s f with
      | Except.ok (s', _) => runActions reg s' rest
      | Except.error _ => runActions reg s rest

/-- The spec's foreign-key invariant: every persisted ChatMessage's room
id resolves to a room in the store. -/
def roomIdInvariant (s : Store) : Prop :=
  ∀ m ∈ s.messages, ∃ r ∈ s.rooms, r.id = m.room_id

/-- The clock discipline of the model: messages carry strictly increasing
creation timestamps (in insertion order), all below the store's clock —
this is what sequential `datetime.now()` assignment at persist time
yields. -/
def StoreClockOk (s : Store) : Prop :=
  (∀ m ∈ s.messages, m.created_at < s.clock) ∧
  s.messages.Pairwise (fun a b => a.created_at < b.created_at)

/-- Errors of the HTTP query surface (`HTTPException`). -/
inductive ApiError where
  | notFound : String → ApiError
  | forbidden : String → ApiError
  deriving DecidableEq, Repr

/-- `query(User).filter(User.username == tu, User.role == "teknisi").first()`. -/
def findTeknisi (dir : List User) (tu : String) : Option User :=
  dir.find? (fun u => u.username == tu && u.role == "teknisi")

/-- `query(User).filter(User.role == "admin_regional", User.area == a).first()`. -/
def findAdminByArea (dir : List User) (area : Option String) : Option User :=
  dir.find? (fun u => u.role == "admin_regional" && u.area == area)

/-- `query(User).filter(User.role == "admin_regional", User.region == g).first()`. -/
def findAdminByRegion (dir : List User) (region : Option String) : Option User :=
  dir.find? (fun u => u.role == "admin_regional" && u.region == region)

/-- Coordinator resolution: area match preferred, region match as fallback. -/
def resolveAdmin (dir : List User) (t : User) : Option User :=
  (findAdminByArea dir t.area).orElse (fun _ => findAdminByRegion dir t.region)

/-- `POST /chat/rooms` (`create_or_get_chat_room`): resolve the technician,
then a coordinator (area first, region fallback), 404 when either lookup
fails; return the existing room for the pair or create one with the
region copied from the technician's record. -/
def create_or_get_chat_room (dir : List User) (s : Store)
    (teknisi_username : String) : Except ApiError (Store × ChatRoom) :=
  match findTeknisi dir teknisi_username with
  | none => Except.error (ApiError.notFound "Teknisi tidak ditemukan")
  | some teknisi =>
    match resolveAdmin dir teknisi with
    | none => Except.error
        (ApiError.notFound "Admin Regional tidak ditemukan untuk kota/region ini")
    | some admin =>
      match s.rooms.find? (fun r =>
          r.teknisi_username == teknisi.username &&
          r.admin_regional_username == admin.username) with
      | some room => Except.ok (s, room)
      | none =>
          let room : ChatRoom :=
            { id := s.nextRoomId, teknisi_username := teknisi.username,
              admin_regional_username := admin.username,
              region := teknisi.region, last_message := none,
              last_message_at := none, unread_count_teknisi := 0,
              unread_count_admin := 0, created_at := s.clock }
          Except.ok
            ({ s with rooms := s.rooms ++ [room],
                      nextRoomId := s.nextRoomId + 1,
                      clock := s.clock + 1 }, room)

/-- The descending `ORDER BY created_at DESC` relation of the history query. -/
abbrev createdAtDesc (a b : ChatMessage) : Prop :=
  b.created_at ≤ a.created_at

instance : IsTotal ChatMessage createdAtDesc :=
  ⟨fun a b => Nat.le_total b.created_at a.created_at⟩

instance : IsTrans ChatMessage createdAtDesc :=
  ⟨fun _ _ _ hab hbc => Nat.le_trans hbc hab⟩

/-- `GET /chat/rooms/{room_id}/messages` (`get_chat_messages`): 404 when the
room is missing, 403 on a role/username mismatch; otherwise the room's
messages ordered by `created_at` descending, paged by `offset(skip)`
`limit(limit)`, then reversed to show oldest first. -/
def get_chat_messages (s : Store) (cu : User) (room_id skip limit : Nat) :
    Except ApiError (List ChatMessage) :=
  match findRoom s room_id with
  | none => Except.error (ApiError.notFound "Chat room tidak ditemukan")
  | some room =>
      if cu.role == "teknisi" && room.teknisi_username != cu.username then
        Except.error (ApiError.forbidden "Akses ditolak")
      else if cu.role == "admin_regional" &&
          room.admin_regional_username != cu.username then
        Except.error (ApiError.forbidden "Akses ditolak")
      else
        Except.ok (((((s.messages.filter
          (fun m => m.room_id == room_id)).insertionSort
            createdAtDesc).drop skip).take limit).reverse)

/-! Concrete fixtures used to run the model on closed inputs. -/

/-- A technician in area "Jakarta", region "WEST". -/
def exTeknisi : User :=
  { username := "tek1", role := "teknisi",
    area := some "Jakarta", region := some "WEST" }

/-- A coordinator whose area matches `exTeknisi`'s area. -/
def exAdminArea : User :=
  { username := "reg1", role := "admin_regional",
    area := some "Jakarta", region := some "WEST" }

/-- A coordinator matching only `exTeknisi`'s region. -/
def exAdminRegion : User :=
  { username := "reg2", role := "admin_regional",
    area := some "Bandung", region := some "WEST" }

/-- A small identity directory. -/
def exDir : List User := [exTeknisi, exAdminArea, exAdminRegion]

/-- A room pairing `tek1` with `reg1`. -/
def exRoom : ChatRoom :=
  { id := 1, teknisi_username := "tek1", admin_regional_username := "reg1",
    region := some "WEST", last_message := none, last_message_at := none,
    unread_count_teknisi := 0, unread_count_admin := 0, created_at := 0 }

/-- A store holding just `exRoom`. -/
def exStore : Store :=
  { rooms := [exRoom], messages := [], nextRoomId := 2,
    nextMessageId := 1, clock := 1 }

/-- A well-formed `send_message` frame for room 1 from a technician. -/
def exSendFrame : Frame :=
  { action := some "send_message", room_id := some 1,
    sender_role := some "teknisi", message := some "unit collected",
    message_type := none, attachment_url := none, role := none }

/-- A `send_message` frame whose sender_role is an arbitrary invalid string. -/
def exSendFrameBogus : Frame :=
  { action := some "send_message", room_id := some 1,
    sender_role := some "bogus", message := some "hi",
    message_type := none, attachment_url := none, role := none }

/-- A `send_message` frame missing the `message` key. -/
def exSendFrameNoBody : Frame :=
  { action := some "send_message", room_id := some 1,
    sender_role := some "teknisi", message := none,
    message_type := none, attachment_url := none, role := none }

/-- A well-formed `mark_read` frame for room 1 from the coordinator side. -/
def exMarkFrame : Frame :=
  { action := some "mark_read", room_id := some 1, sender_role := none,
    message := none, message_type := none, attachment_url := none,
    role := some "admin_regional" }

/-- A `mark_read` frame for room 1 missing the `role` key. -/
def exMarkFrameNoRole : Frame :=
  { action := some "mark_read", room_id := some 1, sender_role := none,
    message := none, message_type := none, attachment_url := none,
    role := none }

/-- A `mark_read` frame for a nonexistent room 99. -/
def exMarkFrameNoRoom : Frame :=
  { action := some "mark_read", room_id := some 99, sender_role := none,
    message := none, message_type := none, attachment_url := none,
    role := some "teknisi" }

/-- The room `create_or_get_chat_room` creates for `tek1` from the empty
store: id 1, paired with the area coordinator `reg1`, region copied from
the technician. -/
def exRoomFresh : ChatRoom :=
  { id := 1, teknisi_username := "tek1", admin_regional_username := "reg1",
    region := some "WEST", last_message := none, last_message_at := none,
    unread_count_teknisi := 0, unread_count_admin := 0, created_at := 0 }

/-- The store after `create_or_get_chat_room` created `exRoomFresh`. -/
def exStoreAfterCreate : Store :=
  { rooms := [exRoomFresh], messages := [], nextRoomId := 2,
    nextMessageId := 1, clock := 1 }

/-- A message from `tek1` in room 1, not yet read. -/
def exMsg : ChatMessage :=
  { id := 1, room_id := 1, sender_username := "tek1",
    sender_role := "teknisi", message := "unit collected",
    message_type := "text", attachment_url := none, is_read := false,
    created_at := 1 }

/-- The message the bogus-role frame persists after `exMsg`. -/
def exMsg2 : ChatMessage :=
  { id := 2, room_id := 1, sender_username := "reg1",
    sender_role := "bogus", message := "hi", message_type := "text",
    attachment_url := none, is_read := false, created_at := 2 }

/-- `exRoom` after `exMsg` was sent into it. -/
def exRoomAfterSend : ChatRoom :=
  { exRoom with
      unread_count_admin := 1,
      last_message := some "unit collected",
      last_message_at := some 1 }

/-- A store where `tek1` has sent `exMsg` into room 1. -/
def exStoreMsgs : Store :=
  { rooms := [exRoomAfterSend], messages := [exMsg], nextRoomId := 2,
    nextMessageId := 2, clock := 2 }

/-! Helper lemmas about the store operations. -/

lemma find?_updateRoomFirst (rid : Nat) (g : ChatRoom → ChatRoom)
    (hg : ∀ r, (g r).id = r.id) (l : List ChatRoom) :
    (updateRoomFirst rid g l).find? (fun r => r.id == rid) =
      (l.find? (fun r => r.id == rid)).map g := by
  induction l with
  | nil => simp [updateRoomFirst]
  | cons r rest ih =>
      by_cases h : r.id = rid
      · have hpg : (((g r).id == rid) = true) := by simp [hg r, h]
        simp [updateRoomFirst, h, List.find?_cons_of_pos, hpg]
      · have hpr : (r.id == rid) = false := by simp [h]
        simp [updateRoomFirst, List.find?_cons, hpr, ih, h]

lemma map_id_updateRoomFirst (rid : Nat) (g : ChatRoom → ChatRoom)
    (hg : ∀ r, (g r).id = r.id) (l : List ChatRoom) :
    (updateRoomFirst rid g l).map (fun r => r.id) = l.map (fun r => r.id) := by
  induction l with
  | nil => simp [updateRoomFirst]
  | cons r rest ih =>
      by_cases h : r.id = rid
      · simp [updateRoomFirst, h, hg r]
      · simp [updateRoomFirst, h, ih]

/-- Reduction of `processFrame` in the `send_message` branch when every
required key is present. -/
lemma processFrame_send_eq (u : String) (reg : List String) (s : Store)
    (f : Frame) (rid : Nat) (srole body : String)
    (ha : f.action = some "send_message") (hr : f.room_id = some rid)
    (hsr : f.sender_role = some srole) (hb : f.message = some body) :
    processFrame u reg s f =
      Except.ok (sendMessageAction u reg s rid srole body
        (f.message_type.getD "text") f.attachment_url) := by
  simp [processFrame, ha, hr, hsr, hb]

/-- Reduction of `processFrame` in the `mark_read` branch when the room
exists and both required keys are present. -/
lemma processFrame_mark_eq (u : String) (reg : List String) (s : Store)
    (f : Frame) (rid : Nat) (role : String) (r : ChatRoom)
    (ha : f.action = some "mark_read") (hr : f.room_id = some rid)
    (hrole : f.role = some role) (hfind : findRoom s rid = some r) :
    processFrame u reg s f = Except.ok (markReadAction u s rid role, []) := by
  simp [processFrame, ha, hr, hrole, hfind]

/-- Effect of `sendMessageAction` on the room found by the frame's room id:
the first matching room gets its last-message fields and counters updated. -/
lemma sendMessageAction_findRoom (u : String) (reg : List String) (s : Store)
    (rid : Nat) (srole body mtype : String) (aurl : Option String)
    (r : ChatRoom) (hfind : findRoom s rid = some r) :
    findRoom (sendMessageAction u reg s rid srole body mtype aurl).1 rid =
      some (sendRoomUpdate body s.clock srole r) := by
  unfold findRoom at hfind ⊢
  simp only [sendMessageAction]
  rw [find?_updateRoomFirst rid (sendRoomUpdate body s.clock srole)
    (fun rr => rfl) s.rooms, hfind]
  rfl

/-- Effect of `markReadAction` on the room found by the frame's room id. -/
lemma markReadAction_findRoom (u : String) (s : Store) (rid : Nat)
    (role : String) (r : ChatRoom) (hfind : findRoom s rid = some r) :
    findRoom (markReadAction u s rid role) rid =
      some (markRoomUpdate role r) := by
  unfold findRoom at hfind ⊢
  simp only [markReadAction]
  rw [find?_updateRoomFirst rid (markRoomUpdate role)
    (fun rr => by unfold markRoomUpdate; split <;> rfl) s.rooms, hfind]
  rfl

/-! Claim theorems. -/

/-- C9: a `mark_read` frame whose room id matches no room leaves the store
entirely unchanged (no counter zeroed, no read flag flipped) and performs
no delivery: both updates are guarded by the room lookup. -/
theorem markRead_unknown_room_noop (u : String) (reg : List String) (s : Store)
    (f : Frame) (rid : Nat) (ha : f.action = some "mark_read")
    (hr : f.room_id = some rid) (hn : findRoom s rid = none) :
    processFrame u reg s f = Except.ok (s, []) := by
  simp [processFrame, ha, hr, hn]

/-- Witness for C9: marking room 99 as read in `exStore` is a no-op. -/
theorem markRead_unknown_room_noop_witness :
    processFrame "reg1" [] exStore exMarkFrameNoRoom = Except.ok (exStore, []) :=
  markRead_unknown_room_noop "reg1" [] exStore exMarkFrameNoRoom 99
    rfl rfl (by decide)

/-- C3: a `send_message` on an existing room increments exactly the unread
counter of the opposite role (technician sender bumps the coordinator's
counter, coordinator sender bumps the technician's) and leaves the
sender's own counter unchanged. -/
theorem sendMessage_increments_opposite_counter (u : String) (reg : List String)
    (s s' : Store) (ds : List (String × ChatMessage)) (f : Frame) (rid : Nat)
    (srole body : String) (r : ChatRoom)
    (ha : f.action = some "send_message") (hr : f.room_id = some rid)
    (hsr : f.sender_role = some srole) (hb : f.message = some body)
    (hfind : findRoom s rid = some r)
    (hok : processFrame u reg s f = Except.ok (s', ds)) :
    ∃ r', findRoom s' rid = some r' ∧
      (srole = "teknisi" →
        r'.unread_count_admin = r.unread_count_admin + 1 ∧
        r'.unread_count_teknisi = r.unread_count_teknisi) ∧
      (srole = "admin_regional" →
        r'.unread_count_teknisi = r.unread_count_teknisi + 1 ∧
        r'.unread_count_admin = r.unread_count_admin) := by
  rw [processFrame_send_eq u reg s f rid srole body ha hr hsr hb] at hok
  injection hok with hpair
  have hs' : (sendMessageAction u reg s rid srole body
      (f.message_type.getD "text") f.attachment_url).1 = s' :=
    congrArg Prod.fst hpair
  have hfr := sendMessageAction_findRoom u reg s rid srole body
      (f.message_type.getD "text") f.attachment_url r hfind
  rw [hs'] at hfr
  refine ⟨_, hfr, ?_, ?_⟩
  · intro h
    subst h
    exact ⟨by simp [sendRoomUpdate], by simp [sendRoomUpdate]⟩
  · intro h
    subst h
    exact ⟨by simp [sendRoomUpdate], by simp [sendRoomUpdate]⟩

/-- Witness for C3: `tek1` sends into room 1 of `exStore`; the coordinator
counter goes 0 to 1 and the technician counter stays 0. -/
theorem sendMessage_increments_opposite_counter_witness :
    ∃ r', findRoom (sendMessageAction "tek1" [] exStore 1 "teknisi"
        "unit collected" "text" none).1 1 = some r' ∧
      ("teknisi" = "teknisi" →
        r'.unread_count_admin = exRoom.unread_count_admin + 1 ∧
        r'.unread_count_teknisi = exRoom.unread_count_teknisi) ∧
      ("teknisi" = "admin_regional" →
        r'.unread_count_teknisi = exRoom.unread_count_teknisi + 1 ∧
        r'.unread_count_admin = exRoom.unread_count_admin) :=
  sendMessage_increments_opposite_counter "tek1" [] exStore _ _ exSendFrame 1
    "teknisi" "unit collected" exRoom rfl rfl rfl rfl rfl rfl

/-- C10: the counter selection in `send_message` is a plain two-way branch
on the frame's sender_role, not a validation: any sender_role other than
exactly "teknisi" increments the technician's counter. -/
theorem sendMessage_nonTeknisi_increments_teknisi (u : String)
    (reg : List String) (s s' : Store) (ds : List (String × ChatMessage))
    (f : Frame) (rid : Nat) (srole body : String) (r : ChatRoom)
    (ha : f.action = some "send_message") (hr : f.room_id = some rid)
    (hsr : f.sender_role = some srole) (hb : f.message = some body)
    (hne : srole ≠ "teknisi") (hfind : findRoom s rid = some r)
    (hok : processFrame u reg s f = Except.ok (s', ds)) :
    ∃ r', findRoom s' rid = some r' ∧
      r'.unread_count_teknisi = r.unread_count_teknisi + 1 ∧
      r'.unread_count_admin = r.unread_count_admin := by
  rw [processFrame_send_eq u reg s f rid srole body ha hr hsr hb] at hok
  injection hok with hpair
  have hs' : (sendMessageAction u reg s rid srole body
      (f.message_type.getD "text") f.attachment_url).1 = s' :=
    congrArg Prod.fst hpair
  have hfr := sendMessageAction_findRoom u reg s rid srole body
      (f.message_type.getD "text") f.attachment_url r hfind
  rw [hs'] at hfr
  refine ⟨_, hfr, ?_, ?_⟩ <;> simp [sendRoomUpdate, hne]

/-- Witness for C10: sender_role "bogus" bumps the technician's counter. -/
theorem sendMessage_nonTeknisi_increments_teknisi_witness :
    ∃ r', findRoom (sendMessageAction "tek1" [] exStore 1 "bogus" "hi"
        "text" none).1 1 = some r' ∧
      r'.unread_count_teknisi = exRoom.unread_count_teknisi + 1 ∧
      r'.unread_count_admin = exRoom.unread_count_admin :=
  sendMessage_nonTeknisi_increments_teknisi "tek1" [] exStore _ _
    exSendFrameBogus 1 "bogus" "hi" exRoom rfl rfl rfl rfl (by decide) rfl rfl

/-- C4: `mark_read` on an existing room performs no delivery, zeroes the
unread counter selected by the frame's role ("teknisi" zeroes the
technician's counter, any other role the coordinator's), and flips
`is_read` to true on exactly those messages of the room whose sender is
not the connected identity and whose flag is currently false; messages
sent by the connected identity are never modified. -/
theorem markRead_zeroes_counter_and_flips_flags (u : String)
    (reg : List String) (s s' : Store) (ds : List (String × ChatMessage))
    (f : Frame) (rid : Nat) (role : String) (r : ChatRoom)
    (ha : f.action = some "mark_read") (hr : f.room_id = some rid)
    (hrole : f.role = some role) (hfind : findRoom s rid = some r)
    (hok : processFrame u reg s f = Except.ok (s', ds)) :
    ds = [] ∧
    s'.messages = s.messages.map (fun m =>
      if m.room_id == rid && m.sender_username != u && m.is_read == false
      then { m with is_read := true } else m) ∧
    (∀ m ∈ s.messages, m.sender_username = u → m ∈ s'.messages) ∧
    ∃ r', findRoom s' rid = some r' ∧
      (role = "teknisi" → r'.unread_count_teknisi = 0) ∧
      (role ≠ "teknisi" → r'.unread_count_admin = 0) := by
  rw [processFrame_mark_eq u reg s f rid role r ha hr hrole hfind] at hok
  injection hok with hpair
  have hs' : markReadAction u s rid role = s' := congrArg Prod.fst hpair
  have hds : ds = [] := (congrArg Prod.snd hpair).symm
  subst hs'
  refine ⟨hds, rfl, ?_, ?_⟩
  · intro m hm hmu
    have hfix : (if m.room_id == rid && m.sender_username != u &&
        m.is_read == false then { m with is_read := true } else m) = m := by
      have hb2 : (m.sender_username != u) = false := by simp [hmu]
      simp [hb2]
    exact List.mem_map.mpr ⟨m, hm, hfix⟩
  · have hfr := markReadAction_findRoom u s rid role r hfind
    refine ⟨_, hfr, ?_, ?_⟩
    · intro h
      subst h
      simp [markRoomUpdate]
    · intro h
      simp [markRoomUpdate, h]

/-- Witness for C4: `reg1` marks room 1 of `exStoreMsgs` as read; the
coordinator counter is zeroed and `tek1`'s message becomes read. -/
theorem markRead_zeroes_counter_and_flips_flags_witness :
    ([] : List (String × ChatMessage)) = [] ∧
    (markReadAction "reg1" exStoreMsgs 1 "admin_regional").messages =
      exStoreMsgs.messages.map (fun m =>
        if m.room_id == 1 && m.sender_username != "reg1" && m.is_read == false
        then { m with is_read := true } else m) ∧
    (∀ m ∈ exStoreMsgs.messages, m.sender_username = "reg1" →
      m ∈ (markReadAction "reg1" exStoreMsgs 1 "admin_regional").messages) ∧
    ∃ r', findRoom (markReadAction "reg1" exStoreMsgs 1 "admin_regional") 1 =
        some r' ∧
      ("admin_regional" = "teknisi" → r'.unread_count_teknisi = 0) ∧
      ("admin_regional" ≠ "teknisi" → r'.unread_count_admin = 0) :=
  markRead_zeroes_counter_and_flips_flags "reg1" [] exStoreMsgs _ _
    exMarkFrame 1 "admin_regional" exRoomAfterSend rfl rfl rfl rfl rfl

/-- C8: broadcasting to an existing room where exactly one of the two
members has a live registry entry delivers the payload to the online
member only; no delivery is attempted to the offline member and the
function returns normally. -/
theorem broadcast_one_member_online {α : Type} (reg : List String) (s : Store)
    (rid : Nat) (payload : α) (room : ChatRoom)
    (hfind : findRoom s rid = some room) :
    (room.teknisi_username ∈ reg → room.admin_regional_username ∉ reg →
      broadcastToRoom reg s rid payload none =
        [(room.teknisi_username, payload)]) ∧
    (room.admin_regional_username ∈ reg → room.teknisi_username ∉ reg →
      broadcastToRoom reg s rid payload none =
        [(room.admin_regional_username, payload)]) := by
  constructor <;> intro h1 h2 <;>
    simp [broadcastToRoom, hfind, sendToConnection, h1, h2]

/-- Witness for C8: with only `reg1` online, a broadcast to room 1 of
`exStore` reaches exactly `reg1`. -/
theorem broadcast_one_member_online_witness :
    broadcastToRoom ["reg1"] exStore 1 "ping" none = [("reg1", "ping")] :=
  (broadcast_one_member_online ["reg1"] exStore 1 "ping" exRoom rfl).2
    (by decide) (by decide)

/-- Coordinator resolution yields nothing iff neither an area match nor a
region match exists. -/
lemma resolveAdmin_eq_none_iff (dir : List User) (t : User) :
    resolveAdmin dir t = none ↔
      findAdminByArea dir t.area = none ∧
      findAdminByRegion dir t.region = none := by
  unfold resolveAdmin
  cases findAdminByArea dir t.area <;> simp [Option.orElse]

/-- An area match takes precedence in coordinator resolution. -/
lemma resolveAdmin_area_some (dir : List User) (t : User) (a : User)
    (h : findAdminByArea dir t.area = some a) : resolveAdmin dir t = some a := by
  unfold resolveAdmin
  rw [h]
  rfl

/-- C6: room resolution is idempotent.  If `create_or_get_chat_room`
succeeds once with store `s₁` and room `room`, running it again on `s₁`
with the same technician and directory returns the very same room and
leaves the store untouched — no second room for the pair is created. -/
theorem create_or_get_chat_room_idempotent (dir : List User) (s s₁ : Store)
    (room : ChatRoom) (tu : String)
    (h : create_or_get_chat_room dir s tu = Except.ok (s₁, room)) :
    create_or_get_chat_room dir s₁ tu = Except.ok (s₁, room) := by
  unfold create_or_get_chat_room at h ⊢
  cases ht : findTeknisi dir tu with
  | none =>
      simp only [ht] at h
      exact Except.noConfusion h
  | some t =>
      simp only [ht] at h ⊢
      cases hadm : resolveAdmin dir t with
      | none =>
          simp only [hadm] at h
          exact Except.noConfusion h
      | some a =>
          simp only [hadm] at h ⊢
          cases hf : s.rooms.find? (fun r =>
              r.teknisi_username == t.username &&
              r.admin_regional_username == a.username) with
          | some r0 =>
              simp only [hf] at h
              injection h with hp
              have h1 : s = s₁ := congrArg Prod.fst hp
              have h2 : r0 = room := congrArg Prod.snd hp
              subst h1
              subst h2
              simp only [hf]
          | none =>
              simp only [hf] at h
              injection h with hp
              have h1 := congrArg Prod.fst hp
              have h2 := congrArg Prod.snd hp
              dsimp only at h1 h2
              subst h2
              rw [← h1]
              dsimp only
              rw [List.find?_append, hf]
              simp

/-- Witness for C6: resolving `tek1`'s room twice from the empty store
returns the room created by the first call, with the store unchanged. -/
theorem create_or_get_chat_room_idempotent_witness :
    create_or_get_chat_room exDir exStoreAfterCreate "tek1" =
      Except.ok (exStoreAfterCreate, exRoomFresh) :=
  create_or_get_chat_room_idempotent exDir initialStore exStoreAfterCreate
    exRoomFresh "tek1" rfl

/-- C7: `create_or_get_chat_room` fails with `NotFound` exactly when the
technician lookup fails, or when no coordinator matches the technician's
area and none matches the technician's region; an area-matching
coordinator is preferred over a region-only match; when the pair had no
room yet, the created room's region is copied from the technician's
record. -/
theorem create_or_get_chat_room_spec (dir : List User) (s : Store)
    (tu : String) :
    ((∃ d, create_or_get_chat_room dir s tu =
        Except.error (ApiError.notFound d)) ↔
      (findTeknisi dir tu = none ∨
       ∃ t, findTeknisi dir tu = some t ∧
         findAdminByArea dir t.area = none ∧
         findAdminByRegion dir t.region = none)) ∧
    (∀ t a s' room, findTeknisi dir tu = some t →
      findAdminByArea dir t.area = some a →
      create_or_get_chat_room dir s tu = Except.ok (s', room) →
      room.admin_regional_username = a.username) ∧
    (∀ t a s' room, findTeknisi dir tu = some t →
      resolveAdmin dir t = some a →
      s.rooms.find? (fun r => r.teknisi_username == t.username &&
        r.admin_regional_username == a.username) = none →
      create_or_get_chat_room dir s tu = Except.ok (s', room) →
      room.region = t.region ∧ s'.rooms = s.rooms ++ [room]) := by
  refine ⟨?_, ?_, ?_⟩
  · cases ht : findTeknisi dir tu with
    | none => simp [create_or_get_chat_room, ht]
    | some t =>
        cases hadm : resolveAdmin dir t with
        | none =>
            have hh := (resolveAdmin_eq_none_iff dir t).mp hadm
            simp [create_or_get_chat_room, ht, hadm, hh]
        | some a =>
            have hh : ¬(findAdminByArea dir t.area = none ∧
                findAdminByRegion dir t.region = none) := by
              intro hc
              rw [(resolveAdmin_eq_none_iff dir t).mpr hc] at hadm
              exact Option.noConfusion hadm
            cases hf : s.rooms.find? (fun r =>
                r.teknisi_username == t.username &&
                r.admin_regional_username == a.username) with
            | some r0 => simp [create_or_get_chat_room, ht, hadm, hf, hh]
            | none => simp [create_or_get_chat_room, ht, hadm, hf, hh]
  · intro t a s' room ht harea hok
    have hadm := resolveAdmin_area_some dir t a harea
    unfold create_or_get_chat_room at hok
    simp only [ht, hadm] at hok
    cases hf : s.rooms.find? (fun r =>
        r.teknisi_username == t.username &&
        r.admin_regional_username == a.username) with
    | some r0 =>
        simp only [hf] at hok
        injection hok with hp
        have h2 : r0 = room := congrArg Prod.snd hp
        subst h2
        have hps := List.find?_some hf
        simp at hps
        exact hps.2
    | none =>
        simp only [hf] at hok
        injection hok with hp
        have h2 := congrArg Prod.snd hp
        dsimp only at h2
        subst h2
        rfl
  · intro t a s' room ht hadm hf hok
    unfold create_or_get_chat_room at hok
    simp only [ht, hadm, hf] at hok
    injection hok with hp
    have h1 := congrArg Prod.fst hp
    have h2 := congrArg Prod.snd hp
    dsimp only at h1 h2
    subst h2
    subst h1
    exact ⟨rfl, rfl⟩

/-- Witness for C7: in `exDir` the area coordinator `reg1` (not the
region-only `reg2`) is paired with `tek1`, and the fresh room copies the
technician's region. -/
theorem create_or_get_chat_room_spec_witness :
    exRoomFresh.admin_regional_username = exAdminArea.username ∧
    exRoomFresh.region = exTeknisi.region :=
  ⟨(create_or_get_chat_room_spec exDir initialStore "tek1").2.1
      exTeknisi exAdminArea exStoreAfterCreate exRoomFresh rfl rfl rfl,
   ((create_or_get_chat_room_spec exDir initialStore "tek1").2.2
      exTeknisi exAdminArea exStoreAfterCreate exRoomFresh rfl rfl rfl
      rfl).1⟩

lemma exists_id_updateRoomFirst (rid x : Nat) (g : ChatRoom → ChatRoom)
    (hg : ∀ r, (g r).id = r.id) (l : List ChatRoom) :
    (∃ r ∈ updateRoomFirst rid g l, r.id = x) ↔ (∃ r ∈ l, r.id = x) := by
  have hmap := map_id_updateRoomFirst rid g hg l
  constructor
  · rintro ⟨r, hr, hrx⟩
    have hx : x ∈ l.map (fun r => r.id) := by
      rw [← hmap]
      exact List.mem_map.mpr ⟨r, hr, hrx⟩
    obtain ⟨r', hr', hx'⟩ := List.mem_map.mp hx
    exact ⟨r', hr', hx'⟩
  · rintro ⟨r, hr, hrx⟩
    have hx : x ∈ (updateRoomFirst rid g l).map (fun r => r.id) := by
      rw [hmap]
      exact List.mem_map.mpr ⟨r, hr, hrx⟩
    obtain ⟨r', hr', hx'⟩ := List.mem_map.mp hx
    exact ⟨r', hr', hx'⟩

/-- Counterexample to C1: from the empty store (which satisfies the
foreign-key invariant and has no rooms at all), a `send_message` naming
room 1 still succeeds and commits a message whose room id matches no
room: the persist is not guarded by the room lookup, only the room-field
updates are. -/
theorem sendMessage_dangling_room_id_cex :
    roomIdInvariant initialStore ∧
    processFrame "tek1" [] initialStore exSendFrame =
      Except.ok (sendMessageAction "tek1" [] initialStore 1 "teknisi"
        "unit collected" "text" none) ∧
    ¬ roomIdInvariant (sendMessageAction "tek1" [] initialStore 1 "teknisi"
        "unit collected" "text" none).1 :=
  ⟨by unfold roomIdInvariant; decide, rfl,
   by unfold roomIdInvariant; decide⟩

/-- C1 amended: every `send_message` with the required fields present
persists its message unconditionally (a message with the frame's room id
is always appended), so the foreign-key invariant holds after the action
iff the frame's room id references a room that already exists in the
store. -/
theorem sendMessage_roomId_invariant_iff (u : String) (reg : List String)
    (s s' : Store) (ds : List (String × ChatMessage)) (f : Frame) (rid : Nat)
    (srole body : String)
    (ha : f.action = some "send_message") (hr : f.room_id = some rid)
    (hsr : f.sender_role = some srole) (hb : f.message = some body)
    (hinv : roomIdInvariant s)
    (hok : processFrame u reg s f = Except.ok (s', ds)) :
    (∃ m ∈ s'.messages, m.room_id = rid) ∧
    (roomIdInvariant s' ↔ ∃ r ∈ s.rooms, r.id = rid) := by
  rw [processFrame_send_eq u reg s f rid srole body ha hr hsr hb] at hok
  injection hok with hp
  have hs' : (sendMessageAction u reg s rid srole body
      (f.message_type.getD "text") f.attachment_url).1 = s' :=
    congrArg Prod.fst hp
  rw [← hs']
  have hexid := exists_id_updateRoomFirst rid rid
    (sendRoomUpdate body s.clock srole) (fun rr => rfl) s.rooms
  constructor
  · refine ⟨_, List.mem_append_right _ (List.mem_singleton_self _), rfl⟩
  · constructor
    · intro hinv'
      obtain ⟨r, hr', hid⟩ := hinv' _
        (List.mem_append_right _ (List.mem_singleton_self _))
      exact hexid.mp ⟨r, hr', hid⟩
    · intro hex
      intro m hm
      rcases List.mem_append.mp hm with hold | hnew
      · obtain ⟨r, hrmem, hid⟩ := hinv m hold
        exact (exists_id_updateRoomFirst rid m.room_id
          (sendRoomUpdate body s.clock srole) (fun rr => rfl) s.rooms).mpr
          ⟨r, hrmem, hid⟩
      · rcases List.mem_singleton.mp hnew with rfl
        exact hexid.mpr hex

/-- Witness for the amended C1: sending into the existing room 1 of
`exStore` preserves the invariant, and the iff's right side holds. -/
theorem sendMessage_roomId_invariant_iff_witness :
    (∃ m ∈ (sendMessageAction "tek1" [] exStore 1 "teknisi" "unit collected"
        "text" none).1.messages, m.room_id = 1) ∧
    (roomIdInvariant (sendMessageAction "tek1" [] exStore 1 "teknisi"
        "unit collected" "text" none).1 ↔ ∃ r ∈ exStore.rooms, r.id = 1) :=
  sendMessage_roomId_invariant_iff "tek1" [] exStore _ _ exSendFrame 1
    "teknisi" "unit collected" rfl rfl rfl rfl
    (by unfold roomIdInvariant; decide) rfl

/-- Counterexample to C2: a `send_message` frame missing its message body
does not leave the session processing further frames: the `KeyError`
escapes to the outer handler, which disconnects — the session ends
`Closed` with the registry entry removed, not `Open`. -/
theorem missing_field_closes_cex :
    handleFrame "alice" ["alice"] exStore exSendFrameNoBody =
      (exStore, [], [], SessionState.Closed) := rfl

/-- C2 amended: an action frame missing a required key raises `KeyError`
at the field access, which escapes to the connection's outer exception
handler: the action leaves the store unchanged, delivers nothing, and the
connection is logged and closed (registry entry removed, session
`Closed`) rather than staying open — except that a `mark_read` frame
missing only `role` whose room id matches no room is silently ignored
with the session left open, because the source reads `data["role"]` only
after the room lookup succeeds. -/
theorem missing_field_closes_connection (u : String) (reg : List String)
    (s : Store) (f : Frame)
    (h : (f.action = some "send_message" ∧
           (f.room_id = none ∨ f.sender_role = none ∨ f.message = none)) ∨
         (f.action = some "mark_read" ∧ f.room_id = none) ∨
         (f.action = some "mark_read" ∧ f.role = none ∧
           ∃ rid r, f.room_id = some rid ∧ findRoom s rid = some r)) :
    handleFrame u reg s f = (s, [], reg.erase u, SessionState.Closed) := by
  rcases h with ⟨ha, hmiss⟩ | ⟨ha, hmiss⟩ | ⟨ha, hrole, rid, r, hrid, hfound⟩
  · rcases hmiss with h1 | h1 | h1
    · simp [handleFrame, processFrame, ha, h1]
    · cases hq : f.room_id with
      | none => simp [handleFrame, processFrame, ha, hq]
      | some rid => simp [handleFrame, processFrame, ha, hq, h1]
    · cases hq : f.room_id with
      | none => simp [handleFrame, processFrame, ha, hq]
      | some rid =>
          cases hq2 : f.sender_role with
          | none => simp [handleFrame, processFrame, ha, hq, hq2]
          | some srole => simp [handleFrame, processFrame, ha, hq, hq2, h1]
  · simp [handleFrame, processFrame, ha, hmiss]
  · simp [handleFrame, processFrame, ha, hrid, hfound, hrole]

/-- Witness for the amended C2: a `mark_read` on the existing room 1 with
the `role` key missing closes `reg1`'s session and leaves the store as it
was. -/
theorem missing_field_closes_connection_witness :
    handleFrame "reg1" ["reg1"] exStore exMarkFrameNoRole =
      (exStore, [], [], SessionState.Closed) :=
  missing_field_closes_connection "reg1" ["reg1"] exStore exMarkFrameNoRole
    (Or.inr (Or.inr ⟨rfl, rfl, 1, exRoom, rfl, rfl⟩))

/-- The `mark_read` bulk update never touches creation timestamps. -/
lemma markFn_created_at (u : String) (rid : Nat) (m : ChatMessage) :
    (if m.room_id == rid && m.sender_username != u && m.is_read == false
      then { m with is_read := true } else m).created_at = m.created_at := by
  split <;> rfl

/-- `sendMessageAction` preserves the clock discipline: the new message is
stamped with the current clock, above every earlier stamp. -/
lemma sendMessageAction_clockOk {u : String} {reg : List String} {s : Store}
    {rid : Nat} {srole body mtype : String} {aurl : Option String}
    {s' : Store} {ds : List (String × ChatMessage)} (hs : StoreClockOk s)
    (hp : sendMessageAction u reg s rid srole body mtype aurl = (s', ds)) :
    StoreClockOk s' := by
  obtain ⟨hbound, hpw⟩ := hs
  have h1 : (sendMessageAction u reg s rid srole body mtype aurl).1 = s' :=
    congrArg Prod.fst hp
  subst h1
  refine ⟨?_, ?_⟩
  · intro m hm
    rcases List.mem_append.mp hm with hold | hnew
    · exact Nat.lt_trans (hbound m hold) (Nat.lt_succ_self _)
    · rcases List.mem_singleton.mp hnew with rfl
      exact Nat.lt_succ_self _
  · refine List.pairwise_append.mpr ⟨hpw, List.pairwise_singleton _ _, ?_⟩
    intro a ha b hb
    rcases List.mem_singleton.mp hb with rfl
    exact hbound a ha

/-- `markReadAction` preserves the clock discipline: it only flips read
flags, never timestamps. -/
lemma markReadAction_clockOk {u : String} {s : Store} {rid : Nat}
    {role : String} (hs : StoreClockOk s) :
    StoreClockOk (markReadAction u s rid role) := by
  obtain ⟨hbound, hpw⟩ := hs
  refine ⟨?_, ?_⟩
  · intro m hm
    obtain ⟨m0, hm0, rfl⟩ := List.mem_map.mp hm
    rw [markFn_created_at]
    exact hbound m0 hm0
  · refine List.pairwise_map.mpr ?_
    exact hpw.imp (fun hab => by
      rw [markFn_created_at, markFn_created_at]; exact hab)

/-- Pair form of `markReadAction_clockOk` for use after `injection`. -/
lemma markReadAction_clockOk_of_eq {u : String} {s : Store} {rid : Nat}
    {role : String} {s' : Store} {ds : List (String × ChatMessage)}
    (hs : StoreClockOk s)
    (hp : (markReadAction u s rid role,
      ([] : List (String × ChatMessage))) = (s', ds)) :
    StoreClockOk s' := by
  have h1 : markReadAction u s rid role = s' := congrArg Prod.fst hp
  subst h1
  exact markReadAction_clockOk hs

/-- Every successful frame iteration preserves the clock discipline. -/
lemma processFrame_clockOk (u : String) (reg : List String) (s s' : Store)
    (ds : List (String × ChatMessage)) (f : Frame) (hs : StoreClockOk s)
    (h : processFrame u reg s f = Except.ok (s', ds)) : StoreClockOk s' := by
  unfold processFrame at h
  split at h
  · split at h
    · exact Except.noConfusion h
    · split at h
      · exact Except.noConfusion h
      · split at h
        · exact Except.noConfusion h
        · injection h with hp
          exact sendMessageAction_clockOk hs hp
  · split at h
    · split at h
      · exact Except.noConfusion h
      · split at h
        · injection h with hp
          have h1 : s = s' := congrArg Prod.fst hp
          subst h1
          exact hs
        · split at h
          · exact Except.noConfusion h
          · injection h with hp
            exact markReadAction_clockOk_of_eq hs hp
    · injection h with hp
      have h1 : s = s' := congrArg Prod.fst hp
      subst h1
      exact hs

/-- An interleaved action sequence preserves the clock discipline. -/
lemma runActions_clockOk (reg : List String) (acts : List (String × Frame)) :
    ∀ s : Store, StoreClockOk s → StoreClockOk (runActions reg s acts) := by
  induction acts with
  | nil => intro s hs; exact hs
  | cons uf rest ih =>
      intro s hs
      obtain ⟨u, f⟩ := uf
      cases hpf : processFrame u reg s f with
      | ok res =>
          obtain ⟨s', ds⟩ := res
          have h2 : runActions reg s ((u, f) :: rest) = runActions reg s' rest := by
            simp only [runActions, hpf]
          rw [h2]
          exact ih s' (processFrame_clockOk u reg s s' ds f hs hpf)
      | error e =>
          have h2 : runActions reg s ((u, f) :: rest) = runActions reg s rest := by
            simp only [runActions, hpf]
          rw [h2]
          exact ih s hs

/-- Under the clock discipline, a successful history query returns a list
strictly ascending by creation time. -/
lemma get_chat_messages_sorted (s : Store) (cu : User) (rid k n : Nat)
    (l : List ChatMessage) (hs : StoreClockOk s)
    (h : get_chat_messages s cu rid k n = Except.ok l) :
    l.Pairwise (fun a b => a.created_at < b.created_at) := by
  obtain ⟨hbound, hpw⟩ := hs
  unfold get_chat_messages at h
  split at h
  · exact Except.noConfusion h
  · split at h
    · exact Except.noConfusion h
    · split at h
      · exact Except.noConfusion h
      · injection h with hl
        subst hl
        have hpw0 : (s.messages.filter (fun m => m.room_id == rid)).Pairwise
            (fun a b => a.created_at < b.created_at) := hpw.filter _
        have hsorted := List.sorted_insertionSort createdAtDesc
          (s.messages.filter (fun m => m.room_id == rid))
        have hperm := List.perm_insertionSort createdAtDesc
          (s.messages.filter (fun m => m.room_id == rid))
        have hne : ((s.messages.filter (fun m => m.room_id == rid)).insertionSort
            createdAtDesc).Pairwise
            (fun a b => a.created_at ≠ b.created_at) := by
          refine (hperm.pairwise_iff ?_).mpr (hpw0.imp ?_)
          · intro x y hxy
            exact hxy.symm
          · intro a b hab
            exact Nat.ne_of_lt hab
        have hgt : ((s.messages.filter (fun m => m.room_id == rid)).insertionSort
            createdAtDesc).Pairwise
            (fun a b => b.created_at < a.created_at) := by
          refine List.Pairwise.imp₂ ?_ hsorted hne
          intro a b hle hne2
          exact Nat.lt_of_le_of_ne hle (Ne.symm hne2)
        have hsub : ((((s.messages.filter
            (fun m => m.room_id == rid)).insertionSort
            createdAtDesc).drop k).take n).Sublist
            ((s.messages.filter (fun m => m.room_id == rid)).insertionSort
              createdAtDesc) :=
          (List.take_sublist _ _).trans (List.drop_sublist _ _)
        exact List.pairwise_reverse.mpr (hgt.sublist hsub)

/-- C5: for every room and skip/limit page, after any interleaved sequence
of frames applied to a store whose timestamps follow the persist-time
clock discipline, the history query returns the room's messages strictly
ascending by creation time, oldest first. -/
theorem history_sorted_oldest_first (reg : List String)
    (acts : List (String × Frame)) (s0 : Store) (cu : User) (rid k n : Nat)
    (l : List ChatMessage) (hs0 : StoreClockOk s0)
    (h : get_chat_messages (runActions reg s0 acts) cu rid k n =
      Except.ok l) :
    l.Pairwise (fun a b => a.created_at < b.created_at) :=
  get_chat_messages_sorted _ cu rid k n l
    (runActions_clockOk reg acts s0 hs0) h

/-- Witness for C5: two sends into room 1 and a page query by the
coordinator return the two messages oldest first. -/
theorem history_sorted_oldest_first_witness :
    List.Pairwise (fun a b : ChatMessage => a.created_at < b.created_at)
      [exMsg, exMsg2] :=
  history_sorted_oldest_first []
    [("tek1", exSendFrame), ("reg1", exSendFrameBogus)]
    exStore exAdminArea 1 0 50 [exMsg, exMsg2]
    (by unfold StoreClockOk; decide) rfl

end WmsChat
